import Mathlib

/-!
Shallow embedding of the RL-driven RAG pipeline in `src/app.py`:
the `RLAgent` controller (state keys, epsilon-greedy action choice,
Q-value update, save/load of the Q-table), the question classifier
`is_pdf_related_question`, the reward computation built from
`get_document_similarity` and the answer-length score, and the
orchestration step `user_input`.

Python dicts are modelled as insertion-ordered association lists,
Python floats as exact rationals, and fallible code (KeyError,
ValueError, callouts that may raise) as `Option`-valued functions.
-/

namespace RagRL

/-- A Q-table row: Python dict from action name to float value,
modelled as an insertion-ordered association list. -/
abbrev QRow := List (String × ℚ)

/-- The Q-table: Python dict from state key to row. -/
abbrev QTable := List (String × QRow)

/-- Lookup in an association list (Python `d[k]` / `k in d`), first match. -/
def alookup {α : Type} : List (String × α) → String → Option α
  | [], _ => none
  | (k, v) :: xs, key => if k = key then some v else alookup xs key

/-- Python `d[k] = v` on a dict: update the first binding of `k` in place,
append a new binding if `k` is absent. -/
def aset {α : Type} : List (String × α) → String → α → List (String × α)
  | [], key, v => [(key, v)]
  | (k, w) :: xs, key, v =>
      if k = key then (k, v) :: xs else (k, w) :: aset xs key v

/-- Value of a state/action pair in a Q-table. -/
def qlookup (t : QTable) (s a : String) : Option ℚ :=
  (alookup t s).bind (fun row => alookup row a)

/-- Python `in` on strings: substring containment. -/
def py_in (needle hay : String) : Bool :=
  decide (needle.data <:+: hay.data)

/-- Python `str.lower()` character by character (the source's strings
are ASCII, where CPython and `Char.toLower` agree). -/
def pyLower (s : String) : String :=
  String.mk (s.data.map Char.toLower)

/-- Accumulating worker for `pySplit`: `acc` holds the reversed current
word. -/
def pySplitAux : List Char → List Char → List String
  | [], acc => if acc = [] then [] else [String.mk acc.reverse]
  | c :: cs, acc =>
      if c.isWhitespace then
        if acc = [] then pySplitAux cs []
        else String.mk acc.reverse :: pySplitAux cs []
      else pySplitAux cs (c :: acc)

/-- Python `str.split()` with no argument: split on whitespace runs,
discarding empty pieces. -/
def pySplit (s : String) : List String :=
  pySplitAux s.data []

/-- Fuel-driven worker for `pyReplace`: replaces non-overlapping
occurrences of `pat` left to right, as Python `str.replace` does. -/
def pyReplaceFuel (pat rep : List Char) : ℕ → List Char → List Char
  | 0, t => t
  | _ + 1, [] => []
  | fuel + 1, c :: cs =>
      if pat.isPrefixOf (c :: cs) then
        rep ++ pyReplaceFuel pat rep fuel ((c :: cs).drop pat.length)
      else c :: pyReplaceFuel pat rep fuel cs

/-- Python `s.replace(pat, rep)` for a non-empty pattern. -/
def pyReplace (s pat rep : String) : String :=
  String.mk (pyReplaceFuel pat.data rep.data s.data.length s.data)

/-- Function `get_document_similarity` (src/app.py lines 129-140): mean over the
retrieved passages of the fraction of the question's lowercased
whitespace tokens that occur as substrings of the lowercased passage;
each per-passage fraction is 0 when the question has no tokens, and the
whole score is 0 when there are no passages. -/
def get_document_similarity (question : String) (docs : List String) : ℚ :=
  let keywords := pySplit (pyLower question)
  let total : ℚ := (docs.map (fun d =>
      if keywords = [] then 0
      else ((keywords.filter (fun k => py_in k (pyLower d))).length : ℚ) / keywords.length)).sum
  if docs = [] then 0 else total / docs.length

/-- Score `response_length_score` (src/app.py line 1046): `min(len(answer)/1000, 1.0)`. -/
def response_length_score (answerLen : ℕ) : ℚ :=
  min ((answerLen : ℚ) / 1000) 1

/-- The reward (src/app.py line 1049):
`doc_similarity_score * 0.7 + response_length_score * 0.3`. -/
def reward_of (question : String) (docs : List String) (answerLen : ℕ) : ℚ :=
  get_document_similarity question docs * (7/10) + response_length_score answerLen * (3/10)

/-- The five canonical actions, in the order `update_q_value`
initializes them (src/app.py lines 55-56). -/
def canonical_actions : List String :=
  ["chunk_small", "chunk_medium", "chunk_large", "similarity_standard", "similarity_mmr"]

/-- Python `{action: 0.0 for action in actions}`: a zero row over the given actions. -/
def zeroRow (actions : List String) : QRow :=
  actions.map (fun a => (a, (0 : ℚ)))

/-- Python `if state not in self.q_table: self.q_table[state] = {a: 0.0 for a in actions}`. -/
def lazyInit (t : QTable) (s : String) (actions : List String) : QTable :=
  match alookup t s with
  | some _ => t
  | none => t ++ [(s, zeroRow actions)]

/-- Python `max` over a list of numbers; `none` on the empty list (ValueError). -/
def listMax : List ℚ → Option ℚ
  | [] => none
  | x :: xs => some (xs.foldl max x)

/-- One step of Python `max(items, key=lambda x: x[1])`: keep the current
best unless the next item's value is strictly greater. -/
def pyMaxStep (b y : String × ℚ) : String × ℚ :=
  if y.2 > b.2 then y else b

/-- Python `max(row.items(), key=lambda x: x[1])`: the first entry with
maximal value in enumeration order; `none` on an empty dict (ValueError). -/
def pyMaxBySnd : QRow → Option (String × ℚ)
  | [] => none
  | x :: xs => some (xs.foldl pyMaxStep x)

/-- Quantity `max_next_q` of `update_q_value` (src/app.py lines 58-61): 0 unless
`next_state` is truthy (non-`None` and non-empty) and present in the
table, in which case the maximum of that row's values; `none` when that
row is empty (`max` of an empty sequence raises ValueError). -/
def maxNextQ (t : QTable) (ns : Option String) : Option ℚ :=
  match ns with
  | none => some 0
  | some n =>
      if n = "" then some 0
      else match alookup t n with
        | none => some 0
        | some row => listMax (row.map (fun p => p.2))

/-- Method `RLAgent.update_q_value` (src/app.py lines 52-67). The unseen state's
row is first initialized to zero over the five canonical actions; then
`Q[s][a] += lr * (r + df * max_next_q - Q[s][a])`. Returns `none` when
the Python code would raise: reading `Q[s][a]` for an action absent from
the row (KeyError), or `max` over an empty next-state row (ValueError). -/
def update_q_value (lr df : ℚ) (t : QTable) (s a : String) (r : ℚ)
    (ns : Option String) : Option QTable :=
  let t1 := lazyInit t s canonical_actions
  match maxNextQ t1 ns, alookup t1 s with
  | some m, some row =>
      match alookup row a with
      | some old => some (aset t1 s (aset row a (old + lr * (r + df * m - old))))
      | none => none
  | _, _ => none

/-- Variant of `update_q_value` following the spec's words for `maxNextQ`:
"the maximum value over all actions in nextState's row if nextState is
non-null and already present in the table, else 0" — without the Python
truthiness test that also sends an empty-string next state to 0. -/
def update_q_value_claimed (lr df : ℚ) (t : QTable) (s a : String) (r : ℚ)
    (ns : Option String) : Option QTable :=
  let t1 := lazyInit t s canonical_actions
  let mnq : Option ℚ :=
    match ns with
    | none => some 0
    | some n =>
        match alookup t1 n with
        | none => some 0
        | some row => listMax (row.map (fun p => p.2))
  match mnq, alookup t1 s with
  | some m, some row =>
      match alookup row a with
      | some old => some (aset t1 s (aset row a (old + lr * (r + df * m - old))))
      | none => none
  | _, _ => none

/-- Method `RLAgent.choose_action` (src/app.py lines 40-50). The draw of
`random.random()` is passed in as `rnd` (always in `[0,1)`), and the
index `random.choice` would pick as `pickIdx`. On exploration the action
is taken from `available_actions` and the table is untouched; otherwise
an unseen state's row is initialized to zero over `available_actions`
and the first maximal entry of the row is returned together with the
resulting table. `none` models IndexError (empty `available_actions` on
exploration) or ValueError (`max` over an empty row). -/
def choose_action (ε rnd : ℚ) (pickIdx : ℕ) (t : QTable) (s : String)
    (actions : List String) : Option (String × QTable) :=
  if rnd < ε then (actions[pickIdx]?).map (fun a => (a, t))
  else
    let t1 := lazyInit t s actions
    match alookup t1 s with
    | none => none
    | some row => (pyMaxBySnd row).map (fun p => (p.1, t1))

/-- Variant of `choose_action` following the claim's words: an unseen
state's row is "lazily initialized to zero for the five canonical
actions" rather than for the `available_actions` argument. -/
def choose_action_claimed (ε rnd : ℚ) (pickIdx : ℕ) (t : QTable) (s : String)
    (actions : List String) : Option (String × QTable) :=
  if rnd < ε then (actions[pickIdx]?).map (fun a => (a, t))
  else
    let t1 := lazyInit t s canonical_actions
    match alookup t1 s with
    | none => none
    | some row => (pyMaxBySnd row).map (fun p => (p.1, t1))

/-- Round half to even at the integers (what CPython's float formatting
does to the exact value at a decimal midpoint). -/
def rhe (x : ℚ) : ℤ :=
  let f := ⌊x⌋
  let r := x - f
  if r < 1/2 then f
  else if 1/2 < r then f + 1
  else if f % 2 = 0 then f else f + 1

/-- Two decimal digits with a leading zero. -/
def twoDigits (m : ℕ) : String :=
  (if m < 10 then "0" else "") ++ toString m

/-- Python `f"{e:.2f}"` on the exact rational value of `e`: round half
to even at two decimals and render with a sign, the integer part, a
point, and two fraction digits. -/
def fmt2 (q : ℚ) : String :=
  let n := rhe (100 * q)
  (if q < 0 then "-" else "") ++ toString (n.natAbs / 100) ++ "." ++ twoDigits (n.natAbs % 100)

/-- Method `RLAgent.get_state_key` (src/app.py lines 33-38):
`f"{'-'.join([f'{e:.2f}' for e in question_embedding[:5]])}-{'-'.join(document_ids[:3])}"`. -/
def get_state_key (emb : List ℚ) (docIds : List String) : String :=
  String.intercalate "-" ((emb.take 5).map fmt2) ++ "-" ++
    String.intercalate "-" (docIds.take 3)

/-- The document ids `user_input` passes to `get_state_key`
(src/app.py line 989): `[pdf.name[:5] for pdf in pdf_docs]`. -/
def doc_ids_of (names : List String) : List String :=
  names.map (fun n => n.take 5)

/-- The state key `user_input` builds (src/app.py lines 988-990). -/
def state_key_of (emb : List ℚ) (names : List String) : String :=
  get_state_key emb (doc_ids_of names)

/-- The document-indicating keywords (src/app.py lines 163-166). -/
def pdf_indicators : List String :=
  ["pdf", "document", "file", "text", "content", "read", "extract",
   "from the document", "in the pdf", "mentioned in"]

/-- The conversational-opener phrases (src/app.py lines 179-184). -/
def conversational_starters : List String :=
  ["how are you", "what is your name", "tell me about yourself",
   "who are you", "what can you do", "hello", "hi ", "hey", "thanks",
   "thank you", "help me", "can you help", "I need help",
   "what's the weather", "who made you", "how do you work"]

/-- The name check of `is_pdf_related_question` (src/app.py lines 169-171):
some loaded document's lowercased name, with every `".pdf"` removed,
occurs in the lowercased question. -/
def mentions_pdf_name (q : String) (names : List String) : Bool :=
  names.any (fun n => py_in (pyReplace (pyLower n) ".pdf" "") (pyLower q))

/-- The keyword check of `is_pdf_related_question` (src/app.py lines 173-176). -/
def mentions_indicator (q : String) : Bool :=
  pdf_indicators.any (fun i => py_in (pyLower i) (pyLower q))

/-- The conversational-opener check of `is_pdf_related_question`
(src/app.py lines 186-188). -/
def mentions_starter (q : String) : Bool :=
  conversational_starters.any (fun s => py_in (pyLower s) (pyLower q))

/-- Classifier `is_pdf_related_question` (src/app.py lines 157-191), with documents
represented by their names. `true` means document-related. The checks
run in the code's order: no documents, then document names, then
document-indicating keywords, then conversational openers, then the
default (`True` when documents are present). -/
def is_pdf_related_question (q : String) (names : List String) : Bool :=
  if names = [] then false
  else if mentions_pdf_name q names then true
  else if mentions_indicator q then true
  else if mentions_starter q then false
  else true

/-- Variant of `is_pdf_related_question` following the claim's precedence:
conversational openers are consulted before document names and keywords. -/
def is_pdf_related_question_claimed (q : String) (names : List String) : Bool :=
  if names = [] then false
  else if mentions_starter q then false
  else if mentions_pdf_name q names then true
  else if mentions_indicator q then true
  else true

/-- The two retrieval-strategy actions (src/app.py line 994). -/
def retrieval_actions : List String := ["similarity_standard", "similarity_mmr"]

/-- The three chunking actions (src/app.py line 993). -/
def chunking_actions : List String := ["chunk_small", "chunk_medium", "chunk_large"]

/-- The chunk-size/overlap pair the document path applies for a chosen
action (src/app.py lines 1000-1009): `chunk_small` and `chunk_medium`
have their fixed pairs, and the final `else` branch — which catches
`chunk_large` and both retrieval actions — applies the large pair. -/
def chunk_params (a : String) : ℕ × ℕ :=
  if a = "chunk_small" then (5000, 500)
  else if a = "chunk_medium" then (10000, 1000)
  else (15000, 1500)

/-- The chunk parameters the claim describes: a chunking action fixes its
pair, a retrieval action reuses whatever chunking was last applied. -/
def chunk_params_claimed (a : String) (lastApplied : ℕ × ℕ) : ℕ × ℕ :=
  if a ∈ chunking_actions then chunk_params a else lastApplied

/-- The search strategies of the document path (src/app.py lines 1017-1027). -/
inductive SearchStrategy where
  | standard
  | mmr
deriving DecidableEq, Repr

/-- The search strategy the document path applies for a chosen action
(src/app.py lines 1017-1027): the retrieval actions select their
strategy, a chunking action defaults to standard similarity search. -/
def search_strategy (a : String) : SearchStrategy :=
  if a ∈ retrieval_actions then
    (if a = "similarity_standard" then .standard else .mmr)
  else .standard

/-- A minimal JSON value: what `json.dump`/`json.load` exchange for a
Q-table (numbers, strings, objects with insertion-ordered fields). -/
inductive Json where
  | num (q : ℚ)
  | str (s : String)
  | obj (fields : List (String × Json))
deriving Repr

/-- Method `RLAgent.save_model` (src/app.py lines 69-72): serialize the Q-table
as a JSON object of objects of numbers. -/
def save_model (t : QTable) : Json :=
  .obj (t.map (fun p => (p.1, .obj (p.2.map (fun q => (q.1, .num q.2))))))

/-- Read one Q-table row back from JSON. -/
def decodeRow : List (String × Json) → Option QRow
  | [] => some []
  | (k, .num q) :: xs => (decodeRow xs).map (fun r => (k, q) :: r)
  | _ => none

/-- Read the JSON object fields back as Q-table entries. -/
def decodeFields : List (String × Json) → Option QTable
  | [] => some []
  | (k, .obj row) :: xs =>
      match decodeRow row, decodeFields xs with
      | some r, some rest => some ((k, r) :: rest)
      | _, _ => none
  | _ => none

/-- Interpret parsed JSON as a Q-table (a mapping from state to
per-action numbers); `none` when the JSON has a different shape. -/
def decodeQTable : Json → Option QTable
  | .obj fields => decodeFields fields
  | _ => none

/-- Method `RLAgent.load_model` (src/app.py lines 74-78): if no file exists
(`store = none`) the table stays as constructed; otherwise the stored
JSON is parsed and interpreted as the new table (`none` models a stored
value that is not a table of per-action numbers). -/
def load_model (current : QTable) (store : Option Json) : Option QTable :=
  match store with
  | none => some current
  | some j => decodeQTable j

/-- One conversation-history entry (src/app.py lines 895-903, 1059-1061):
question, answer, model label, timestamp, joined document names, chosen
action or `"direct_query"`, and the reward rendered to two decimals or
`"N/A"`. -/
structure Record where
  question : String
  answer : String
  modelLabel : String
  timestamp : String
  pdfNames : String
  action : String
  reward : String
deriving DecidableEq, Repr

/-- The state `user_input` reads and mutates: the agent's Q-table and
the conversation history. -/
structure OrchState where
  q_table : QTable
  history : List Record
deriving DecidableEq, Repr

/-- Where an external call of `user_input` raises, if anywhere.
`generalGen` is the general-path answer generation (caught at
src/app.py lines 972-974); `docBeforeChoose` is text extraction or
question embedding (lines 982-986), raised before `choose_action`;
`docAfterChoose` is vector-store build/load, search, or answer
generation (lines 1012-1031), raised after `choose_action` and before
the Q-value update; `docSave` is `save_model` (line 1055, e.g.
unwritable storage), raised after the in-place Q-update at line 1052
and before the history append at line 1059. Document-path exceptions
propagate uncaught. -/
inductive FailPoint where
  | generalGen
  | docBeforeChoose
  | docAfterChoose
  | docSave
deriving DecidableEq, Repr

/-- One pass of `user_input` (src/app.py lines 862-1136) over the shared
state, with the external collaborators' outputs passed in: the question
embedding `emb`, the retrieved passages `retrieved`, the generated
`answer`, the timestamp `ts`, the agent's hyperparameters, the random
draw `rnd` and exploration pick `pickIdx`, and the failure point of this
pass (if any). With no API key the pass returns immediately. The
general path (taken when the classifier says general or no documents
are loaded, the code's `if not is_pdf_question or not pdf_docs`)
appends one `direct_query` record unless generation fails, in which
case the error is caught and the state is returned unchanged. The
document path builds the state key, chooses an action (possibly
lazily initializing the state's row), updates the chosen entry, saves
the model, and appends one record; a propagating exception after
`choose_action` (or a KeyError inside the update) leaves the history
alone but keeps whatever `choose_action` did to the table, and a
`save_model` failure leaves the history alone but keeps the already
applied Q-update, since the update at line 1052 mutates the shared
table before `save_model` runs at line 1055. -/
def user_input_step (apiKey : Option String) (question : String)
    (pdfNames : List String) (emb : List ℚ) (retrieved : List String)
    (answer ts modelName : String) (ε lr df rnd : ℚ) (pickIdx : ℕ)
    (fail : Option FailPoint) (s : OrchState) : OrchState :=
  match apiKey with
  | none => s
  | some _ =>
    if is_pdf_related_question question pdfNames = true ∧ pdfNames ≠ [] then
      if fail = some .docBeforeChoose then s
      else
        let key := state_key_of emb pdfNames
        match choose_action ε rnd pickIdx s.q_table key
            (chunking_actions ++ retrieval_actions) with
        | none => s
        | some (act, t1) =>
          if fail = some .docAfterChoose then { s with q_table := t1 }
          else
            let r := reward_of question retrieved answer.length
            match update_q_value lr df t1 key act r none with
            | none => { s with q_table := t1 }
            | some t2 =>
              if fail = some .docSave then { s with q_table := t2 }
              else
                { q_table := t2
                  history := s.history ++
                    [⟨question, answer, modelName, ts,
                      String.intercalate ", " pdfNames, act, fmt2 r⟩] }
    else
      if fail = some .generalGen then s
      else
        { s with history := s.history ++
            [⟨question, answer, "Direct " ++ modelName, ts,
              String.intercalate ", " pdfNames, "direct_query", "N/A"⟩] }

/-! ## Association-list lemmas -/

theorem alookup_append_of_none {α : Type} (t xs : List (String × α)) (s : String)
    (h : alookup t s = none) : alookup (t ++ xs) s = alookup xs s := by
  induction t with
  | nil => rfl
  | cons p t ih =>
    by_cases hk : p.1 = s
    · rw [alookup, if_pos hk] at h
      exact absurd h (by simp)
    · rw [alookup, if_neg hk] at h
      simpa [alookup, hk] using ih h

theorem alookup_aset_self {α : Type} (l : List (String × α)) (k : String) (v : α) :
    alookup (aset l k v) k = some v := by
  induction l with
  | nil => simp [aset, alookup]
  | cons p l ih =>
    by_cases hk : p.1 = k
    · simp [aset, hk, alookup]
    · simp [aset, hk, alookup, ih]

theorem alookup_aset_other {α : Type} (l : List (String × α)) (k : String) (v : α)
    (k' : String) (h : k' ≠ k) : alookup (aset l k v) k' = alookup l k' := by
  induction l with
  | nil => simp [aset, alookup, Ne.symm h]
  | cons p l ih =>
    by_cases hk : p.1 = k
    · subst hk
      have hne : ¬ p.1 = k' := fun hc => h hc.symm
      simp [aset, alookup, hne]
    · simp [aset, hk, alookup, ih]

theorem alookup_zeroRow (A : List String) (a : String) (h : a ∈ A) :
    alookup (zeroRow A) a = some 0 := by
  induction A with
  | nil => cases h
  | cons x A ih =>
    rcases List.mem_cons.mp h with h | h
    · simp [zeroRow, alookup, h]
    · by_cases hx : x = a
      · simp [zeroRow, alookup, hx]
      · simpa [zeroRow, alookup, hx] using ih h

theorem lazyInit_of_mem (t : QTable) (s : String) (A : List String) (r : QRow)
    (h : alookup t s = some r) : lazyInit t s A = t := by
  simp [lazyInit, h]

theorem lazyInit_of_not_mem (t : QTable) (s : String) (A : List String)
    (h : alookup t s = none) :
    lazyInit t s A = t ++ [(s, zeroRow A)] ∧
      alookup (lazyInit t s A) s = some (zeroRow A) := by
  refine ⟨by simp [lazyInit, h], ?_⟩
  simp only [lazyInit, h]
  rw [alookup_append_of_none _ _ _ h]
  simp [alookup]

/-! ## Maximum lemmas -/

theorem foldl_max_spec (xs : List ℚ) (x : ℚ) :
    (xs.foldl max x = x ∨ xs.foldl max x ∈ xs) ∧
      x ≤ xs.foldl max x ∧ ∀ y ∈ xs, y ≤ xs.foldl max x := by
  induction xs generalizing x with
  | nil => exact ⟨Or.inl rfl, le_refl x, by simp⟩
  | cons y ys ih =>
    obtain ⟨hmem, hle, hall⟩ := ih (max x y)
    rw [List.foldl_cons]
    refine ⟨?_, le_trans (le_max_left x y) hle, ?_⟩
    · rcases hmem with h | h
      · rcases max_choice x y with hc | hc
        · exact Or.inl (h.trans hc)
        · exact Or.inr (List.mem_cons.mpr (Or.inl (h.trans hc)))
      · exact Or.inr (List.mem_cons_of_mem y h)
    · intro z hz
      rcases List.mem_cons.mp hz with hz | hz
      · rw [hz]
        exact le_trans (le_max_right x y) hle
      · exact hall z hz

theorem listMax_spec (l : List ℚ) (m : ℚ) (h : listMax l = some m) :
    m ∈ l ∧ ∀ y ∈ l, y ≤ m := by
  match l with
  | [] => simp [listMax] at h
  | x :: xs =>
    rw [listMax, Option.some_inj] at h
    obtain ⟨hmem, hle, hall⟩ := foldl_max_spec xs x
    rw [h] at hmem hle hall
    constructor
    · rcases hmem with h' | h'
      · rw [h']
        exact List.mem_cons_self x xs
      · exact List.mem_cons_of_mem x h'
    · intro y hy
      rcases List.mem_cons.mp hy with hy | hy
      · rw [hy]
        exact hle
      · exact hall y hy

theorem foldl_pyMaxStep_spec (xs : List (String × ℚ)) (b : String × ℚ) :
    (xs.foldl pyMaxStep b = b ∧ ∀ q ∈ xs, q.2 ≤ b.2) ∨
      (∃ l₁ l₂, xs = l₁ ++ (xs.foldl pyMaxStep b) :: l₂ ∧
        b.2 < (xs.foldl pyMaxStep b).2 ∧
        (∀ q ∈ l₁, q.2 < (xs.foldl pyMaxStep b).2) ∧
        (∀ q ∈ l₂, q.2 ≤ (xs.foldl pyMaxStep b).2)) := by
  induction xs generalizing b with
  | nil => exact Or.inl ⟨rfl, by simp⟩
  | cons y ys ih =>
    rw [List.foldl_cons]
    by_cases hy : y.2 > b.2
    · have hstep : pyMaxStep b y = y := if_pos hy
      rw [hstep]
      rcases ih y with ⟨heq, hall⟩ | ⟨l₁, l₂, hsplit, hlt, hl₁, hl₂⟩
      · rw [heq]
        exact Or.inr ⟨[], ys, by simp, hy, by simp, hall⟩
      · refine Or.inr ⟨y :: l₁, l₂, ?_, lt_trans hy hlt, ?_, hl₂⟩
        · rw [List.cons_append, ← hsplit]
        · intro q hq
          rcases List.mem_cons.mp hq with hq | hq
          · rw [hq]
            exact hlt
          · exact hl₁ q hq
    · have hstep : pyMaxStep b y = b := if_neg hy
      rw [hstep]
      rcases ih b with ⟨heq, hall⟩ | ⟨l₁, l₂, hsplit, hlt, hl₁, hl₂⟩
      · rw [heq]
        refine Or.inl ⟨rfl, ?_⟩
        intro q hq
        rcases List.mem_cons.mp hq with hq | hq
        · rw [hq]
          exact le_of_not_lt hy
        · exact hall q hq
      · refine Or.inr ⟨y :: l₁, l₂, ?_, hlt, ?_, hl₂⟩
        · rw [List.cons_append, ← hsplit]
        · intro q hq
          rcases List.mem_cons.mp hq with hq | hq
          · rw [hq]
            exact lt_of_le_of_lt (le_of_not_lt hy) hlt
          · exact hl₁ q hq

/-- Function `pyMaxBySnd` returns the first entry whose value is maximal: the
entries before it are strictly smaller, the entries after it no larger. -/
theorem pyMaxBySnd_first_max (row : QRow) (p : String × ℚ)
    (h : pyMaxBySnd row = some p) :
    ∃ l₁ l₂, row = l₁ ++ p :: l₂ ∧ (∀ q ∈ l₁, q.2 < p.2) ∧ ∀ q ∈ l₂, q.2 ≤ p.2 := by
  match row with
  | [] => simp [pyMaxBySnd] at h
  | x :: xs =>
    rw [pyMaxBySnd, Option.some_inj] at h
    rcases foldl_pyMaxStep_spec xs x with ⟨heq, hall⟩ | ⟨l₁, l₂, hsplit, hlt, hl₁, hl₂⟩
    · have hpx : p = x := h.symm.trans heq
      subst hpx
      exact ⟨[], xs, by simp, by simp, hall⟩
    · rw [h] at hsplit hlt hl₁ hl₂
      refine ⟨x :: l₁, l₂, ?_, ?_, hl₂⟩
      · rw [hsplit, List.cons_append]
      · intro q hq
        rcases List.mem_cons.mp hq with hq | hq
        · rw [hq]
          exact hlt
        · exact hl₁ q hq

/-! ## Similarity and reward bounds -/

theorem get_document_similarity_nonneg (q : String) (docs : List String) :
    0 ≤ get_document_similarity q docs := by
  simp only [get_document_similarity]
  by_cases hd : docs = []
  · simp [hd]
  · rw [if_neg hd]
    apply div_nonneg
    · apply List.sum_nonneg
      intro x hx
      obtain ⟨d, _, rfl⟩ := List.mem_map.mp hx
      by_cases hk : pySplit (pyLower q) = []
      · simp [hk]
      · rw [if_neg hk]
        positivity
    · positivity

theorem get_document_similarity_le_one (q : String) (docs : List String) :
    get_document_similarity q docs ≤ 1 := by
  simp only [get_document_similarity]
  by_cases hd : docs = []
  · simp [hd]
  · rw [if_neg hd]
    have hlen : (0 : ℚ) < docs.length := by
      exact_mod_cast List.length_pos.mpr hd
    rw [div_le_one hlen]
    have hbound : ∀ x ∈ docs.map (fun d =>
        if pySplit (pyLower q) = [] then (0 : ℚ)
        else (((pySplit (pyLower q)).filter (fun k => py_in k (pyLower d))).length : ℚ) /
          (pySplit (pyLower q)).length), x ≤ 1 := by
      intro x hx
      obtain ⟨d, _, rfl⟩ := List.mem_map.mp hx
      by_cases hk : pySplit (pyLower q) = []
      · simp [hk]
      · rw [if_neg hk]
        have hkl : (0 : ℚ) < (pySplit (pyLower q)).length := by
          exact_mod_cast List.length_pos.mpr hk
        rw [div_le_one hkl]
        exact_mod_cast List.length_filter_le _ _
    calc (docs.map _).sum ≤ (docs.map _).length • (1 : ℚ) :=
          List.sum_le_card_nsmul _ 1 hbound
      _ = docs.length := by simp

theorem response_length_score_bounds (n : ℕ) :
    0 ≤ response_length_score n ∧ response_length_score n ≤ 1 :=
  ⟨le_min (by positivity) zero_le_one, min_le_right _ _⟩

/-- C10: the similarity computation is total and never divides by zero:
an empty or whitespace-only question (empty tokenization) scores 0 for
any passages, and an empty passage list scores 0 for any question. -/
theorem similarity_degenerate_inputs :
    (∀ (q : String) (docs : List String), pySplit (pyLower q) = [] →
        get_document_similarity q docs = 0) ∧
    ∀ (q : String), get_document_similarity q [] = 0 := by
  constructor
  · intro q docs h
    simp [get_document_similarity, h]
  · intro q
    simp [get_document_similarity]

/-- Witness for `similarity_degenerate_inputs` at a whitespace-only
question with one passage, and a nonempty question with no passages. -/
theorem similarity_degenerate_witness :
    get_document_similarity "  " ["abc"] = 0 ∧ get_document_similarity "x" [] = 0 :=
  ⟨similarity_degenerate_inputs.1 "  " ["abc"] (by rfl),
   similarity_degenerate_inputs.2 "x"⟩

/-- C3: the reward is `0.7 * similarityScore + 0.3 * lengthScore` with
`lengthScore = min(answerLength/1000, 1)`; it always lies in `[0, 1]`;
the similarity score is 1 when every question token occurs in the single
retrieved passage (and the question has tokens), and 0 when none do. -/
theorem reward_formula_and_range :
    (∀ (q : String) (docs : List String) (n : ℕ),
        reward_of q docs n =
          0.7 * get_document_similarity q docs + 0.3 * response_length_score n) ∧
    (∀ (q : String) (docs : List String) (n : ℕ),
        0 ≤ reward_of q docs n ∧ reward_of q docs n ≤ 1) ∧
    (∀ (q d : String), pySplit (pyLower q) ≠ [] →
        (∀ k ∈ pySplit (pyLower q), py_in k (pyLower d) = true) →
        get_document_similarity q [d] = 1) ∧
    ∀ (q d : String), (∀ k ∈ pySplit (pyLower q), py_in k (pyLower d) = false) →
        get_document_similarity q [d] = 0 := by
  refine ⟨?_, ?_, ?_, ?_⟩
  · intro q docs n
    simp only [reward_of]
    norm_num
    ring
  · intro q docs n
    have h1 := get_document_similarity_nonneg q docs
    have h2 := get_document_similarity_le_one q docs
    obtain ⟨h3, h4⟩ := response_length_score_bounds n
    simp only [reward_of]
    constructor <;> nlinarith
  · intro q d h1 h2
    have hfilter : (pySplit (pyLower q)).filter (fun k => py_in k (pyLower d)) =
        pySplit (pyLower q) := List.filter_eq_self.mpr h2
    have hkl : ((pySplit (pyLower q)).length : ℚ) ≠ 0 := by
      exact_mod_cast List.length_pos.mpr h1 |>.ne'
    simp [get_document_similarity, hfilter, if_neg h1, div_self hkl]
  · intro q d h
    have hfilter : (pySplit (pyLower q)).filter (fun k => py_in k (pyLower d)) = [] := by
      rw [List.filter_eq_nil_iff]
      intro k hk
      simp [h k hk]
    by_cases hk : pySplit (pyLower q) = []
    · simp [get_document_similarity, hk]
    · simp [get_document_similarity, hfilter, if_neg hk]

/-- Witness for `reward_formula_and_range`: the spec's worked example
"what is the revenue" against a passage containing all four tokens and a
passage containing none. -/
theorem reward_formula_witness :
    get_document_similarity "what is the revenue" ["so what is the revenue then"] = 1 ∧
    get_document_similarity "what is the revenue" ["zzz qqq"] = 0 ∧
    0 ≤ reward_of "what is the revenue" ["zzz qqq"] 500 :=
  ⟨reward_formula_and_range.2.2.1 "what is the revenue" "so what is the revenue then"
      (by decide) (by decide),
   reward_formula_and_range.2.2.2 "what is the revenue" "zzz qqq" (by decide),
   (reward_formula_and_range.2.1 "what is the revenue" ["zzz qqq"] 500).1⟩

/-! ## The Q-value update (C1) -/

theorem update_q_value_eq (lr df r : ℚ) (t : QTable) (s a : String)
    (ns : Option String) (m old : ℚ) (row : QRow)
    (hm : maxNextQ (lazyInit t s canonical_actions) ns = some m)
    (hrow : alookup (lazyInit t s canonical_actions) s = some row)
    (hold : alookup row a = some old) :
    update_q_value lr df t s a r ns =
      some (aset (lazyInit t s canonical_actions) s
        (aset row a (old + lr * (r + df * m - old)))) := by
  simp only [update_q_value, hm, hrow, hold]

theorem update_q_value_fresh (t : QTable) (s a : String) (lr df r : ℚ)
    (hs : alookup t s = none) (ha : a ∈ canonical_actions) :
    ∃ t2, update_q_value lr df t s a r none = some t2 ∧
      qlookup t2 s a = some (0 + lr * (r + df * 0 - 0)) := by
  obtain ⟨-, hrow⟩ := lazyInit_of_not_mem t s canonical_actions hs
  have hold := alookup_zeroRow canonical_actions a ha
  refine ⟨_, update_q_value_eq lr df r t s a none 0 0 _ rfl hrow hold, ?_⟩
  rw [qlookup, alookup_aset_self]
  exact alookup_aset_self _ a _

/-- C1 (amended): `update_q_value` replaces `Q[s][a]` by
`Q[s][a] + lr * (r + df * maxNextQ - Q[s][a])` and leaves every other
entry unchanged, where `maxNextQ` is the maximum value of the next
state's row when the next state is non-null, **non-empty**, and present
in the table, and 0 otherwise; an unseen state's row is first
initialized to zero for the five canonical actions. On a fresh row,
`lr = 1, df = 0, r = 1` yields exactly 1, and `lr = 0` yields exactly 0
regardless of the reward. -/
theorem update_q_value_spec :
    (∀ (lr df r : ℚ) (t : QTable) (s a : String) (ns : Option String)
        (m old : ℚ) (row : QRow),
        maxNextQ (lazyInit t s canonical_actions) ns = some m →
        alookup (lazyInit t s canonical_actions) s = some row →
        alookup row a = some old →
        ∃ t2, update_q_value lr df t s a r ns = some t2 ∧
          qlookup t2 s a = some (old + lr * (r + df * m - old)) ∧
          ∀ s' a', s' ≠ s ∨ a' ≠ a →
            qlookup t2 s' a' = qlookup (lazyInit t s canonical_actions) s' a') ∧
    (∀ t : QTable, maxNextQ t none = some 0) ∧
    (∀ (t : QTable) (n : String), n = "" ∨ alookup t n = none →
        maxNextQ t (some n) = some 0) ∧
    (∀ (t : QTable) (n : String) (row : QRow), n ≠ "" → alookup t n = some row →
        row ≠ [] → ∃ mx, maxNextQ t (some n) = some mx ∧
          mx ∈ row.map (fun p => p.2) ∧ ∀ v ∈ row.map (fun p => p.2), v ≤ mx) ∧
    (∀ (t : QTable) (s a : String), alookup t s = none → a ∈ canonical_actions →
        ∃ t2, update_q_value 1 0 t s a 1 none = some t2 ∧
          qlookup t2 s a = some 1) ∧
    ∀ (t : QTable) (s a : String) (r df : ℚ), alookup t s = none →
        a ∈ canonical_actions →
        ∃ t2, update_q_value 0 df t s a r none = some t2 ∧
          qlookup t2 s a = some 0 := by
  refine ⟨?_, ?_, ?_, ?_, ?_, ?_⟩
  · intro lr df r t s a ns m old row hm hrow hold
    refine ⟨_, update_q_value_eq lr df r t s a ns m old row hm hrow hold, ?_, ?_⟩
    · rw [qlookup, alookup_aset_self]
      exact alookup_aset_self _ a _
    · intro s' a' hne
      by_cases hs : s' = s
      · subst hs
        rcases hne with h | h
        · exact absurd rfl h
        · rw [qlookup, alookup_aset_self, qlookup, hrow]
          exact alookup_aset_other row a _ a' h
      · rw [qlookup, alookup_aset_other _ _ _ _ hs, qlookup]
  · intro t
    rfl
  · intro t n h
    rcases h with h | h
    · simp [maxNextQ, h]
    · by_cases hn : n = "" <;> simp [maxNextQ, hn, h]
  · intro t n row hn hrow hne
    simp only [maxNextQ, if_neg hn, hrow]
    obtain ⟨x, xs, rfl⟩ := List.exists_cons_of_ne_nil hne
    exact ⟨_, rfl, listMax_spec _ _ rfl⟩
  · intro t s a hs ha
    obtain ⟨t2, h1, h2⟩ := update_q_value_fresh t s a 1 0 1 hs ha
    refine ⟨t2, h1, ?_⟩
    rw [h2]
    norm_num
  · intro t s a r df hs ha
    obtain ⟨t2, h1, h2⟩ := update_q_value_fresh t s a 0 df r hs ha
    refine ⟨t2, h1, ?_⟩
    rw [h2]
    norm_num

/-- Witness for `update_q_value_spec`: on the empty table, updating an
unseen state's `chunk_small` with reward 1, learning rate 1, discount 0
stores exactly 1. -/
theorem update_q_value_spec_witness :
    ∃ t2, update_q_value 1 0 ([] : QTable) "s" "chunk_small" 1 none = some t2 ∧
      qlookup t2 "s" "chunk_small" = some 1 :=
  update_q_value_spec.2.2.2.2.1 [] "s" "chunk_small" rfl (by decide)

/-- Counterexample to C1 as stated: for the empty-string next state,
which is non-null and present in the table, the code takes `maxNextQ = 0`
(Python truthiness of `next_state`), not the row's maximum, so it
disagrees with the claim's variant. -/
theorem update_q_value_next_state_counterexample :
    update_q_value 1 1 [("", [("chunk_small", 5)])] "x" "chunk_small" 0 (some "") ≠
      update_q_value_claimed 1 1 [("", [("chunk_small", 5)])] "x" "chunk_small" 0
        (some "") := by
  simp [update_q_value, update_q_value_claimed, lazyInit, alookup, maxNextQ,
    listMax, zeroRow, canonical_actions, aset]

/-! ## Greedy action choice (C2) -/

/-- C2 (amended): with exploration rate 0, `choose_action` never
explores; it returns the first entry of the state's row whose value is
maximal (enumeration order of the row breaks ties), and an unseen
state's row is lazily initialized to zero for the actions of the
`available_actions` argument (not the five canonical actions). -/
theorem choose_action_greedy :
    ∀ (rnd : ℚ) (i : ℕ) (t : QTable) (s : String) (A : List String)
      (a : String) (t' : QTable),
      0 ≤ rnd →
      choose_action 0 rnd i t s A = some (a, t') →
      t' = lazyInit t s A ∧
      ∃ row v, alookup t' s = some row ∧
        (alookup t s = none → row = zeroRow A) ∧
        ∃ l₁ l₂, row = l₁ ++ (a, v) :: l₂ ∧
          (∀ q ∈ l₁, q.2 < v) ∧ ∀ q ∈ l₂, q.2 ≤ v := by
  intro rnd i t s A a t' h0 hc
  simp only [choose_action, if_neg (not_lt.mpr h0)] at hc
  cases halookup : alookup (lazyInit t s A) s with
  | none => rw [halookup] at hc; exact absurd hc (by simp)
  | some row =>
    rw [halookup] at hc
    obtain ⟨p, hp, hpf⟩ := Option.map_eq_some'.mp hc
    obtain ⟨ha, ht⟩ := Prod.mk.injEq _ _ _ _ |>.mp hpf
    subst ha
    subst ht
    refine ⟨rfl, row, p.2, halookup, ?_, ?_⟩
    · intro hnone
      obtain ⟨-, h2⟩ := lazyInit_of_not_mem t s A hnone
      rw [halookup] at h2
      exact Option.some_inj.mp h2
    · have := pyMaxBySnd_first_max row p hp
      simpa using this

/-- Witness for `choose_action_greedy`: the empty table, state `"s"`,
the five canonical actions, random draw 0. -/
theorem choose_action_greedy_witness :
    [("s", zeroRow canonical_actions)] = lazyInit [] "s" canonical_actions ∧
      ∃ row v, alookup [("s", zeroRow canonical_actions)] "s" = some row ∧
        (alookup ([] : QTable) "s" = none → row = zeroRow canonical_actions) ∧
        ∃ l₁ l₂, row = l₁ ++ ("chunk_small", v) :: l₂ ∧
          (∀ q ∈ l₁, q.2 < v) ∧ ∀ q ∈ l₂, q.2 ≤ v :=
  choose_action_greedy 0 0 [] "s" canonical_actions "chunk_small"
    [("s", zeroRow canonical_actions)] (le_refl 0)
    (by rw [choose_action, if_neg (by norm_num : ¬ (0 : ℚ) < 0)]
        simp [lazyInit, alookup, zeroRow, canonical_actions, pyMaxBySnd, pyMaxStep])

/-- Counterexample to C2 as stated: for an unseen state the code
initializes the row from `available_actions`, not from the five
canonical actions, so with `available_actions = ["similarity_mmr"]` it
returns `"similarity_mmr"` while the claim's variant (canonical
initialization) returns `"chunk_small"`. -/
theorem choose_action_init_counterexample :
    choose_action 0 0 0 [] "s" ["similarity_mmr"] ≠
      choose_action_claimed 0 0 0 [] "s" ["similarity_mmr"] := by
  simp [choose_action, choose_action_claimed, lazyInit, alookup, zeroRow,
    canonical_actions, pyMaxBySnd, pyMaxStep]

/-! ## State key (C4) -/

/-- C4: `get_state_key` is a pure, deterministic function of the
embedding and document ids, and the key produced by the document path is
the first five embedding components rendered to two decimals joined with
`"-"`, then a `"-"`, then the first three document identifiers (the
first five characters of each document's name) joined with `"-"`. -/
theorem state_key_deterministic_and_shape :
    (∀ (e₁ e₂ : List ℚ) (d₁ d₂ : List String), e₁ = e₂ → d₁ = d₂ →
        get_state_key e₁ d₁ = get_state_key e₂ d₂) ∧
    ∀ (emb : List ℚ) (names : List String),
        state_key_of emb names =
          String.intercalate "-" ((emb.take 5).map fmt2) ++ "-" ++
            String.intercalate "-" ((names.map (fun n => n.take 5)).take 3) := by
  constructor
  · intro e₁ e₂ d₁ d₂ he hd
    rw [he, hd]
  · intro emb names
    rfl

/-- Witness for `state_key_deterministic_and_shape`: two calls with the
same concrete embedding and document-id triple produce the same key. -/
theorem state_key_witness :
    get_state_key [(1 : ℚ)] ["abcdefg"] = get_state_key [(1 : ℚ)] ["abcdefg"] :=
  state_key_deterministic_and_shape.1 [(1 : ℚ)] [(1 : ℚ)] ["abcdefg"] ["abcdefg"]
    rfl rfl

/-! ## Question classification (C5) -/

/-- C5 (amended): with no documents every question is general; with
documents present, a question mentioning a loaded document's name or a
document-indicating keyword is document-related, **then** a question
matching a conversational opener is general, and anything else is
document-related (the name/keyword checks take precedence over the
opener check, not the other way around). "hello" is general when no
loaded document's processed name occurs in it, and "what does the pdf
say about X" is document-related whenever documents are present. -/
theorem classification_rule :
    (∀ q, is_pdf_related_question q [] = false) ∧
    (∀ q names, names ≠ [] →
        (mentions_pdf_name q names = true ∨ mentions_indicator q = true) →
        is_pdf_related_question q names = true) ∧
    (∀ q names, names ≠ [] → mentions_pdf_name q names = false →
        mentions_indicator q = false → mentions_starter q = true →
        is_pdf_related_question q names = false) ∧
    (∀ q names, names ≠ [] → mentions_pdf_name q names = false →
        mentions_indicator q = false → mentions_starter q = false →
        is_pdf_related_question q names = true) ∧
    (∀ names, names ≠ [] → mentions_pdf_name "hello" names = false →
        is_pdf_related_question "hello" names = false) ∧
    ∀ names, names ≠ [] →
        is_pdf_related_question "what does the pdf say about X" names = true := by
  refine ⟨?_, ?_, ?_, ?_, ?_, ?_⟩
  · intro q
    simp [is_pdf_related_question]
  · intro q names hne h
    rcases h with h | h <;> simp [is_pdf_related_question, hne, h]
  · intro q names hne h1 h2 h3
    simp [is_pdf_related_question, hne, h1, h2, h3]
  · intro q names hne h1 h2 h3
    simp [is_pdf_related_question, hne, h1, h2, h3]
  · intro names hne hname
    have hind : mentions_indicator "hello" = false := by decide
    have hst : mentions_starter "hello" = true := by decide
    simp [is_pdf_related_question, hne, hname, hind, hst]
  · intro names hne
    by_cases hname : mentions_pdf_name "what does the pdf say about X" names
    · simp [is_pdf_related_question, hne, hname]
    · have hind : mentions_indicator "what does the pdf say about X" = true := by decide
      simp [is_pdf_related_question, hne, hname, hind]

/-- Witness for `classification_rule`: one loaded document named
"zzzzz.pdf"; "hello" is general, "what does the pdf say about X" is
document-related. -/
theorem classification_rule_witness :
    is_pdf_related_question "hello" ["zzzzz.pdf"] = false ∧
      is_pdf_related_question "what does the pdf say about X" ["zzzzz.pdf"] = true :=
  ⟨classification_rule.2.2.2.2.1 ["zzzzz.pdf"] (by decide) (by decide),
   classification_rule.2.2.2.2.2 ["zzzzz.pdf"] (by decide)⟩

/-- Counterexample to C5 as stated: "hello, read the pdf" with a
document loaded matches both a conversational opener and a document
keyword; the code classifies it document-related (keyword check first),
the claim's precedence (opener check first) classifies it general. -/
theorem classification_precedence_counterexample :
    is_pdf_related_question "hello, read the pdf" ["zzzzz.pdf"] ≠
      is_pdf_related_question_claimed "hello, read the pdf" ["zzzzz.pdf"] := by
  decide

/-! ## Action-to-knob mapping (C6) -/

/-- C6 (amended): a chunking action fixes its chunk-size/overlap pair
and the search defaults to standard nearest-neighbor; a retrieval action
fixes the search strategy, and the chunking applied is the `else`
branch's large tier (15000/1500) — not whatever chunking was last
applied. -/
theorem action_knob_mapping :
    chunk_params "chunk_small" = (5000, 500) ∧
    chunk_params "chunk_medium" = (10000, 1000) ∧
    chunk_params "chunk_large" = (15000, 1500) ∧
    (∀ a ∈ chunking_actions, search_strategy a = SearchStrategy.standard) ∧
    search_strategy "similarity_standard" = SearchStrategy.standard ∧
    search_strategy "similarity_mmr" = SearchStrategy.mmr ∧
    ∀ a ∈ retrieval_actions, chunk_params a = (15000, 1500) := by
  refine ⟨by decide, by decide, by decide, ?_, by decide, by decide, ?_⟩
  · intro a ha
    fin_cases ha <;> decide
  · intro a ha
    fin_cases ha <;> decide

/-- Witness for `action_knob_mapping` at the membership hypotheses. -/
theorem action_knob_mapping_witness :
    search_strategy "chunk_large" = SearchStrategy.standard ∧
      chunk_params "similarity_mmr" = (15000, 1500) :=
  ⟨action_knob_mapping.2.2.2.1 "chunk_large" (by decide),
   action_knob_mapping.2.2.2.2.2.2 "similarity_mmr" (by decide)⟩

/-- Counterexample to C6 as stated: for the retrieval action
`similarity_standard`, the code chunks at the large tier (15000/1500),
while the claim's variant reuses the last applied chunking (here the
small tier 5000/500). -/
theorem retrieval_action_chunking_counterexample :
    chunk_params "similarity_standard" ≠
      chunk_params_claimed "similarity_standard" (5000, 500) := by
  decide

/-! ## State-mutation discipline of `user_input` (C7) -/

theorem choose_action_table_shape (ε rnd : ℚ) (i : ℕ) (t : QTable) (key : String)
    (A : List String) (a : String) (t1 : QTable)
    (h : choose_action ε rnd i t key A = some (a, t1)) :
    t1 = t ∨ t1 = t ++ [(key, zeroRow A)] := by
  simp only [choose_action] at h
  by_cases hr : rnd < ε
  · rw [if_pos hr] at h
    obtain ⟨x, -, hxf⟩ := Option.map_eq_some'.mp h
    exact Or.inl (Prod.mk.injEq _ _ _ _ |>.mp hxf).2.symm
  · rw [if_neg hr] at h
    cases hl : alookup (lazyInit t key A) key with
    | none => rw [hl] at h; exact absurd h (by simp)
    | some row =>
      rw [hl] at h
      obtain ⟨p, -, hpf⟩ := Option.map_eq_some'.mp h
      have ht1 : lazyInit t key A = t1 := (Prod.mk.injEq _ _ _ _ |>.mp hpf).2
      cases hmem : alookup t key with
      | some r => exact Or.inl (ht1 ▸ lazyInit_of_mem t key A r hmem)
      | none =>
        right
        rw [← ht1, (lazyInit_of_not_mem t key A hmem).1]

/-- C7 (amended): a missing API key aborts the pass with no state
change; the general path never touches the Q-table, and a general-path
generation failure leaves the whole state unchanged; a document-path
failure before `choose_action` leaves the whole state unchanged; a
document-path failure between `choose_action` and the Q-update (or a
KeyError inside the update) leaves the conversation history unchanged
and changes the Q-table at most by the lazy insertion of a
zero-initialized row for the current state key. The Q-value update,
however, is applied as soon as execution reaches it, not only in a
fully completed pass: a `save_model` failure afterwards leaves the
table fully updated while the pass fails with no record appended. -/
theorem state_mutation_discipline :
    ∀ (question : String) (pdfNames : List String) (emb : List ℚ)
      (retrieved : List String) (answer ts modelName : String)
      (ε lr df rnd : ℚ) (i : ℕ) (s : OrchState),
    (∀ fail, user_input_step none question pdfNames emb retrieved answer ts
        modelName ε lr df rnd i fail s = s) ∧
    (∀ k fail, ¬ (is_pdf_related_question question pdfNames = true ∧ pdfNames ≠ []) →
        (user_input_step (some k) question pdfNames emb retrieved answer ts
          modelName ε lr df rnd i fail s).q_table = s.q_table) ∧
    (∀ k, ¬ (is_pdf_related_question question pdfNames = true ∧ pdfNames ≠ []) →
        user_input_step (some k) question pdfNames emb retrieved answer ts
          modelName ε lr df rnd i (some FailPoint.generalGen) s = s) ∧
    (∀ k, is_pdf_related_question question pdfNames = true ∧ pdfNames ≠ [] →
        user_input_step (some k) question pdfNames emb retrieved answer ts
          modelName ε lr df rnd i (some FailPoint.docBeforeChoose) s = s) ∧
    (∀ k, is_pdf_related_question question pdfNames = true ∧ pdfNames ≠ [] →
        (user_input_step (some k) question pdfNames emb retrieved answer ts
          modelName ε lr df rnd i (some FailPoint.docAfterChoose) s).history =
          s.history ∧
        ((user_input_step (some k) question pdfNames emb retrieved answer ts
            modelName ε lr df rnd i (some FailPoint.docAfterChoose) s).q_table =
            s.q_table ∨
          (user_input_step (some k) question pdfNames emb retrieved answer ts
            modelName ε lr df rnd i (some FailPoint.docAfterChoose) s).q_table =
            s.q_table ++ [(state_key_of emb pdfNames,
              zeroRow (chunking_actions ++ retrieval_actions))])) ∧
    (∀ k act t1, is_pdf_related_question question pdfNames = true ∧ pdfNames ≠ [] →
        choose_action ε rnd i s.q_table (state_key_of emb pdfNames)
          (chunking_actions ++ retrieval_actions) = some (act, t1) →
        update_q_value lr df t1 (state_key_of emb pdfNames) act
          (reward_of question retrieved answer.length) none = none →
        (user_input_step (some k) question pdfNames emb retrieved answer ts
          modelName ε lr df rnd i none s).history = s.history ∧
        (user_input_step (some k) question pdfNames emb retrieved answer ts
          modelName ε lr df rnd i none s).q_table = t1) ∧
    ∀ k act t1 t2, is_pdf_related_question question pdfNames = true ∧ pdfNames ≠ [] →
        choose_action ε rnd i s.q_table (state_key_of emb pdfNames)
          (chunking_actions ++ retrieval_actions) = some (act, t1) →
        update_q_value lr df t1 (state_key_of emb pdfNames) act
          (reward_of question retrieved answer.length) none = some t2 →
        (user_input_step (some k) question pdfNames emb retrieved answer ts
          modelName ε lr df rnd i (some FailPoint.docSave) s).history = s.history ∧
        (user_input_step (some k) question pdfNames emb retrieved answer ts
          modelName ε lr df rnd i (some FailPoint.docSave) s).q_table = t2 := by
  intro question pdfNames emb retrieved answer ts modelName ε lr df rnd i s
  refine ⟨?_, ?_, ?_, ?_, ?_, ?_, ?_⟩
  · intro fail
    rfl
  · intro k fail h
    by_cases hf : fail = some FailPoint.generalGen <;>
      simp [user_input_step, if_neg h, hf]
  · intro k h
    simp [user_input_step, if_neg h]
  · intro k h
    simp [user_input_step, if_pos h]
  · intro k h
    cases hch : choose_action ε rnd i s.q_table (state_key_of emb pdfNames)
        (chunking_actions ++ retrieval_actions) with
    | none =>
      constructor <;> simp [user_input_step, if_pos h, hch]
    | some p =>
      obtain ⟨act, t1⟩ := p
      refine ⟨by simp [user_input_step, if_pos h, hch], ?_⟩
      have hshape := choose_action_table_shape ε rnd i s.q_table
        (state_key_of emb pdfNames) (chunking_actions ++ retrieval_actions)
        act t1 hch
      rcases hshape with h1 | h1 <;>
        simp [user_input_step, if_pos h, hch, h1]
  · intro k act t1 h hch hupd
    constructor <;> simp [user_input_step, if_pos h, hch, hupd]
  · intro k act t1 t2 h hch hupd
    constructor <;> simp [user_input_step, if_pos h, hch, hupd]

theorem persist_demo_key : state_key_of [] ["zzzzz.pdf"] = "-zzzzz" := by
  decide

theorem persist_demo_choose :
    choose_action 0 0 0 [("-zzzzz", [("chunk_small", (0 : ℚ))])]
      (state_key_of [] ["zzzzz.pdf"]) (chunking_actions ++ retrieval_actions) =
      some ("chunk_small", [("-zzzzz", [("chunk_small", (0 : ℚ))])]) := by
  rw [persist_demo_key]
  simp only [choose_action, if_neg (by norm_num : ¬ (0 : ℚ) < 0)]
  simp [lazyInit, alookup, pyMaxBySnd]

theorem persist_demo_reward :
    reward_of "read the pdf" ["read the pdf"] 0 = 7/10 := by
  have hkw : pySplit (pyLower "read the pdf") = ["read", "the", "pdf"] := by decide
  have hfil : List.filter (fun k => py_in k (pyLower "read the pdf"))
      ["read", "the", "pdf"] = ["read", "the", "pdf"] := by decide
  simp [reward_of, get_document_similarity, response_length_score, hkw, hfil]

theorem persist_demo_update :
    update_q_value 1 0 [("-zzzzz", [("chunk_small", (0 : ℚ))])]
      (state_key_of [] ["zzzzz.pdf"]) "chunk_small" (7/10) none =
      some [("-zzzzz", [("chunk_small", (7/10 : ℚ))])] := by
  rw [persist_demo_key]
  simp [update_q_value, lazyInit, alookup, maxNextQ, aset]

theorem persist_demo_update_full :
    update_q_value 1 0 [("-zzzzz", [("chunk_small", (0 : ℚ))])]
      (state_key_of [] ["zzzzz.pdf"]) "chunk_small"
      (reward_of "read the pdf" ["read the pdf"] (String.length "")) none =
      some [("-zzzzz", [("chunk_small", (7/10 : ℚ))])] := by
  have hl : String.length "" = 0 := rfl
  rw [hl, persist_demo_reward]
  exact persist_demo_update

/-- Counterexample to C7 as stated: `save_model` (src/app.py line 1055)
runs after the in-place Q-update (line 1052) and before the history
append (line 1059), with no guard; when it raises, the pass fails with
no record appended, yet the value table keeps the applied Q-update
(the entry moves from 0 to 7/10 here) — the table is updated by a
document-path pass that did not complete. -/
theorem persist_failure_counterexample :
    (user_input_step (some "k") "read the pdf" ["zzzzz.pdf"] [] ["read the pdf"]
        "" "t" "m" 0 1 0 0 0 (some FailPoint.docSave)
        ⟨[("-zzzzz", [("chunk_small", 0)])], []⟩).history = [] ∧
    (user_input_step (some "k") "read the pdf" ["zzzzz.pdf"] [] ["read the pdf"]
        "" "t" "m" 0 1 0 0 0 (some FailPoint.docSave)
        ⟨[("-zzzzz", [("chunk_small", 0)])], []⟩).q_table ≠
      [("-zzzzz", [("chunk_small", 0)])] := by
  have hcond : is_pdf_related_question "read the pdf" ["zzzzz.pdf"] = true ∧
      ["zzzzz.pdf"] ≠ ([] : List String) := by decide
  have hl : String.length "" = 0 := rfl
  refine ⟨?_, ?_⟩
  · simp [user_input_step, if_pos hcond, hcond.1, hl, persist_demo_choose,
      persist_demo_reward, persist_demo_update]
  · simp [user_input_step, if_pos hcond, hcond.1, hl, persist_demo_choose,
      persist_demo_reward, persist_demo_update]

/-- Witness for `state_mutation_discipline`: a missing key, a general
question ("hello", no documents) with a failing generation call, a
document question ("read the pdf" with one document) failing before and
after `choose_action` on the empty state, and the same document question
failing at `save_model` on a one-entry table. -/
theorem state_mutation_discipline_witness :
    user_input_step none "hello" [] [] [] "a" "t" "m" 0 0 0 0 0 none ⟨[], []⟩ =
      (⟨[], []⟩ : OrchState) ∧
    user_input_step (some "k") "hello" [] [] [] "a" "t" "m" 0 0 0 0 0
      (some FailPoint.generalGen) ⟨[], []⟩ = (⟨[], []⟩ : OrchState) ∧
    user_input_step (some "k") "read the pdf" ["zzzzz.pdf"] [] [] "a" "t" "m"
      0 0 0 0 0 (some FailPoint.docBeforeChoose) ⟨[], []⟩ = (⟨[], []⟩ : OrchState) ∧
    (user_input_step (some "k") "read the pdf" ["zzzzz.pdf"] [] [] "a" "t" "m"
      0 0 0 0 0 (some FailPoint.docAfterChoose) ⟨[], []⟩).history = [] ∧
    (user_input_step (some "k") "read the pdf" ["zzzzz.pdf"] [] ["read the pdf"]
      "" "t" "m" 0 1 0 0 0 (some FailPoint.docSave)
      ⟨[("-zzzzz", [("chunk_small", 0)])], []⟩).q_table =
      [("-zzzzz", [("chunk_small", (7/10 : ℚ))])] := by
  have H := state_mutation_discipline "read the pdf" ["zzzzz.pdf"] [] [] "a" "t"
    "m" 0 0 0 0 0 ⟨[], []⟩
  have G := state_mutation_discipline "hello" [] [] [] "a" "t" "m" 0 0 0 0 0
    ⟨[], []⟩
  have S := state_mutation_discipline "read the pdf" ["zzzzz.pdf"] []
    ["read the pdf"] "" "t" "m" 0 1 0 0 0 ⟨[("-zzzzz", [("chunk_small", 0)])], []⟩
  exact ⟨G.1 none, G.2.2.1 "k" (by decide), H.2.2.2.1 "k" (by decide),
    (H.2.2.2.2.1 "k" (by decide)).1,
    (S.2.2.2.2.2.2 "k" "chunk_small" [("-zzzzz", [("chunk_small", 0)])]
      [("-zzzzz", [("chunk_small", (7/10 : ℚ))])] (by decide)
      persist_demo_choose persist_demo_update_full).2⟩

/-! ## Persistence of the Q-table (C8, C9) -/

theorem decodeRow_encode (row : QRow) :
    decodeRow (row.map (fun q => (q.1, Json.num q.2))) = some row := by
  induction row with
  | nil => rfl
  | cons q row ih =>
    simp [decodeRow, ih]

theorem decodeFields_encode (t : QTable) :
    decodeFields (t.map (fun p =>
      (p.1, Json.obj (p.2.map (fun q => (q.1, Json.num q.2)))))) = some t := by
  induction t with
  | nil => rfl
  | cons p t ih =>
    simp [decodeFields, decodeRow_encode, ih]

/-- C8: persisting a Q-table with `save_model` and restoring it with
`load_model` yields exactly the table that was written — every
state/action pair keeps its value. -/
theorem save_load_roundtrip :
    ∀ (t cur : QTable),
      load_model cur (some (save_model t)) = some t ∧
      ∀ s a, (load_model cur (some (save_model t))).map (fun t2 => qlookup t2 s a) =
        some (qlookup t s a) := by
  intro t cur
  have h : load_model cur (some (save_model t)) = some t := by
    simp [load_model, save_model, decodeQTable, decodeFields_encode]
  exact ⟨h, fun s a => by rw [h, Option.map_some']⟩

/-- Witness for `save_load_roundtrip` is not needed (no hypotheses), but
the round trip on a concrete one-entry table is still instructive. -/
theorem save_load_roundtrip_example :
    load_model [] (some (save_model [("s", [("chunk_small", 1/2)])])) =
      some [("s", [("chunk_small", 1/2)])] :=
  (save_load_roundtrip [("s", [("chunk_small", 1/2)])] []).1

/-- C9: with no persisted state (`store = none`), `load_model` keeps the
table exactly as constructed, and being a total function it cannot raise
— a cold start is a no-op, not an error. -/
theorem load_model_cold_start :
    ∀ cur : QTable, load_model cur none = some cur := by
  intro cur
  rfl

end RagRL
